import Mathlib

/-!
Verification of the WebSSRP compositor core: a shallow embedding of the
chatlog parser (src/utils.ts), the layer store operations
(src/components/App.tsx) and the canvas hit-test / render order
(src/components/CanvasRenderer.tsx), together with proofs of the spec's
claims about them.

Modelling conventions:
- JavaScript numbers are modelled as rationals; the arithmetic the claims
  mention (line pitch, font size times line height) is exact in both.
- JavaScript strings are modelled as Lean strings, with the character-level
  operations (split, lower-casing, prefix/suffix/substring tests) defined
  over the underlying character list.  The whitespace class is the ASCII
  part of the JavaScript one, which covers every string the program treats.
- The id supply is modelled as a counter threaded through the session state;
  the source's id generator draws random alphanumeric strings, whose intent
  is a fresh identifier per created layer.
- A runtime layer object carries only the fields of its variant; the model
  carries all fields on every layer, filling the other variant's fields with
  fixed placeholders that no modelled operation reads for a layer of the
  wrong tag.
-/

namespace WebSSRP

/-- Character list lower-casing, the model of JavaScript toLowerCase on the
ASCII strings the program handles. -/
def lowerChars (l : List Char) : List Char := l.map Char.toLower

/-- Lower-casing on strings. -/
def toLowerStr (s : String) : String := String.mk (lowerChars s.data)

/-- ASCII part of the JavaScript whitespace class used by trim and the \s
regex class. -/
def isJsSpace (c : Char) : Bool :=
  c == ' ' || c == '\t' || c == '\n' || c == '\r' ||
  c == Char.ofNat 11 || c == Char.ofNat 12

/-- A line is blank exactly when JavaScript trim leaves the empty string. -/
def isBlank (s : String) : Bool := s.data.all isJsSpace

/-- Occurrence of a pattern as a contiguous block of a character list. -/
def occursIn (pat : List Char) : List Char → Bool
  | [] => pat.isEmpty
  | c :: rest => List.isPrefixOf pat (c :: rest) || occursIn pat rest

/-- Model of the string method includes: the pattern occurs somewhere in the
subject. -/
def includesStr (s pat : String) : Bool := occursIn pat.data s.data

/-- Model of the string method startsWith. -/
def startsWithStr (s pat : String) : Bool := List.isPrefixOf pat.data s.data

/-- Model of the string method endsWith. -/
def endsWithStr (s pat : String) : Bool := List.isSuffixOf pat.data s.data

/-- Splitting a character list at newline characters, the model of the
JavaScript split on a newline separator: n separators yield n + 1 pieces. -/
def splitLinesAux : List Char → List (List Char)
  | [] => [[]]
  | c :: rest =>
    if c = '\n' then [] :: splitLinesAux rest
    else
      match splitLinesAux rest with
      | [] => [[c]]
      | h :: t => (c :: h) :: t

/-- Splitting a string into its newline-separated lines. -/
def splitLines (s : String) : List String := (splitLinesAux s.data).map String.mk

/-- Translation of detectChatColor from src/utils.ts: the first matching rule
decides the color of a chat line. -/
def detectChatColor (text : String) : String :=
  let lower := toLowerStr text
  if startsWithStr text "*" then "#C2A2DA"
  else if includesStr lower "says:" then "#FFFFFF"
  else if includesStr lower "shouts:" then "#FFFFFF"
  else if includesStr lower "whispers:" then "#FFFFFF"
  else if startsWithStr lower "((" || endsWithStr lower "))" then "#A9C4E4"
  else "#FFFFFF"

/-- Translation of the timestamp-stripping step of parseChatlog from
src/utils.ts: the regex removes a leading bracketed two-digit
hour:minute:second group and any whitespace following it, and leaves every
other line unchanged. -/
def stripTimestamp (line : String) : String :=
  match line.data with
  | '[' :: h1 :: h2 :: ':' :: m1 :: m2 :: ':' :: s1 :: s2 :: ']' :: rest =>
    if h1.isDigit && h2.isDigit && m1.isDigit && m2.isDigit &&
       s1.isDigit && s2.isDigit then
      String.mk (rest.dropWhile isJsSpace)
    else line
  | _ => line

/-- One output record of the chatlog parser. -/
structure ChatRecord where
  content : String
  color : String
  y : ℚ
deriving DecidableEq, Repr

/-- The per-line loop of parseChatlog: each kept line is stripped, colored,
and placed 24 units below the previous one. -/
def parseChatlogLines (startY : ℚ) : List String → List ChatRecord
  | [] => []
  | line :: rest =>
    let cleanText := stripTimestamp line
    { content := cleanText, color := detectChatColor cleanText, y := startY } ::
      parseChatlogLines (startY + 24) rest

/-- Translation of parseChatlog from src/utils.ts: split into lines, drop the
lines that are blank after trimming, then process the survivors in order.
The source gives startY the default value 50; callers of the model pass it
explicitly. -/
def parseChatlog (rawText : String) (startY : ℚ) : List ChatRecord :=
  parseChatlogLines startY ((splitLines rawText).filter (fun l => !isBlank l))

/-- Discriminant of the layer union from the source's type declarations. -/
inductive LayerType where
  | image
  | text
deriving DecidableEq, Repr

/-- Filter settings of an image layer. -/
structure Filters where
  brightness : ℚ
  contrast : ℚ
  saturation : ℚ
  blur : ℚ
deriving DecidableEq, Repr

/-- A layer record.  The source splits the fields over the two variants of a
tagged union; the model carries the union of the fields, and the fields of
the variant a layer does not belong to hold placeholders that no modelled
operation reads for that tag. -/
structure LayerObj where
  id : Nat
  type : LayerType
  name : String
  visible : Bool
  locked : Bool
  x : ℚ
  y : ℚ
  src : String
  width : ℚ
  height : ℚ
  scale : ℚ
  rotation : ℚ
  filters : Filters
  content : String
  fontSize : ℚ
  fontFamily : String
  color : String
  strokeColor : String
  strokeWidth : ℚ
  shadowBlur : ℚ
  lineHeight : ℚ
  isBold : Bool
  isItalic : Bool
deriving DecidableEq, Repr

/-- The update record accepted by updateLayer: every field of either variant
may be given or left out, exactly as in the source's update type, which
admits any subset of a variant's fields, the discriminant and the id
included. -/
structure LayerPatch where
  id : Option Nat
  type : Option LayerType
  name : Option String
  visible : Option Bool
  locked : Option Bool
  x : Option ℚ
  y : Option ℚ
  src : Option String
  width : Option ℚ
  height : Option ℚ
  scale : Option ℚ
  rotation : Option ℚ
  filters : Option Filters
  content : Option String
  fontSize : Option ℚ
  fontFamily : Option String
  color : Option String
  strokeColor : Option String
  strokeWidth : Option ℚ
  shadowBlur : Option ℚ
  lineHeight : Option ℚ
  isBold : Option Bool
  isItalic : Option Bool
deriving DecidableEq, Repr

/-- The patch that gives no field. -/
def emptyPatch : LayerPatch :=
  ⟨none, none, none, none, none, none, none, none, none, none, none, none,
   none, none, none, none, none, none, none, none, none, none, none⟩

/-- Spread of a patch over a layer object: a given field overrides, a missing
field keeps the layer's value.  This is the object spread of the source's
updateLayer. -/
def applyPatch (l : LayerObj) (p : LayerPatch) : LayerObj :=
  { id := p.id.getD l.id
    type := p.type.getD l.type
    name := p.name.getD l.name
    visible := p.visible.getD l.visible
    locked := p.locked.getD l.locked
    x := p.x.getD l.x
    y := p.y.getD l.y
    src := p.src.getD l.src
    width := p.width.getD l.width
    height := p.height.getD l.height
    scale := p.scale.getD l.scale
    rotation := p.rotation.getD l.rotation
    filters := p.filters.getD l.filters
    content := p.content.getD l.content
    fontSize := p.fontSize.getD l.fontSize
    fontFamily := p.fontFamily.getD l.fontFamily
    color := p.color.getD l.color
    strokeColor := p.strokeColor.getD l.strokeColor
    strokeWidth := p.strokeWidth.getD l.strokeWidth
    shadowBlur := p.shadowBlur.getD l.shadowBlur
    lineHeight := p.lineHeight.getD l.lineHeight
    isBold := p.isBold.getD l.isBold
    isItalic := p.isItalic.getD l.isItalic }

/-- The session state held by the App component: the ordered layer sequence,
the selection, zoom, canvas size, and the fresh-id counter that models the
id generator. -/
structure AppState where
  layers : List LayerObj
  selectedLayerId : Option Nat
  zoom : ℚ
  canvasWidth : ℚ
  canvasHeight : ℚ
  nextId : Nat
deriving DecidableEq, Repr

/-- The empty session the App starts from. -/
def initialState : AppState := ⟨[], none, 1, 1280, 720, 0⟩

/-- The last Text layer in paint order, found by reversing and taking the
first match, as handleAddText does. -/
def lastTextLayer (layers : List LayerObj) : Option LayerObj :=
  layers.reverse.find? (fun l => l.type == LayerType.text)

/-- The stacking position handleAddText computes: below the last Text
layer's rendered block, or 50 when no Text layer exists. -/
def addTextStartY (layers : List LayerObj) : ℚ :=
  match lastTextLayer layers with
  | some ltl => ltl.y + ltl.fontSize * ltl.lineHeight
  | none => 50

/-- The Text layer handleAddText builds.  The source declares the vertical
offset parameter with default 0 and then tests it for truthiness, so a
missing offset and a zero offset both fall back to the computed position. -/
def newTextLayer (st : AppState) (text : String) (color : String)
    (yOffset : Option ℚ) : LayerObj :=
  let yo : ℚ := yOffset.getD 0
  { id := st.nextId
    type := LayerType.text
    name := String.mk (text.data.take 15)
    visible := true
    locked := false
    x := 50
    y := if yo = 0 then addTextStartY st.layers else yo
    src := ""
    width := 0
    height := 0
    scale := 0
    rotation := 0
    filters := ⟨0, 0, 0, 0⟩
    content := text
    fontSize := 14
    fontFamily := "Arial, sans-serif"
    color := color
    strokeColor := "#000000"
    strokeWidth := 2
    shadowBlur := 0
    lineHeight := 1.2
    isBold := true
    isItalic := false }

/-- Translation of handleAddText from src/components/App.tsx: append the new
Text layer at the top of the order and select it. -/
def handleAddText (st : AppState) (text : String) (color : String)
    (yOffset : Option ℚ) : AppState :=
  let nl := newTextLayer st text color yOffset
  { st with
    layers := st.layers ++ [nl]
    selectedLayerId := some nl.id
    nextId := st.nextId + 1 }

/-- One layer of a bulk chatlog add, from handleBulkAddText. -/
def chatLineLayer (id : Nat) (item : ChatRecord) : LayerObj :=
  { id := id
    type := LayerType.text
    name := "Chat Line"
    visible := true
    locked := false
    x := 30
    y := item.y
    src := ""
    width := 0
    height := 0
    scale := 0
    rotation := 0
    filters := ⟨0, 0, 0, 0⟩
    content := item.content
    fontSize := 13
    fontFamily := "Arial"
    color := item.color
    strokeColor := "#000000"
    strokeWidth := 2
    shadowBlur := 0
    lineHeight := 1.1
    isBold := true
    isItalic := false }

/-- The layers a bulk add creates, one per record with consecutive fresh
ids. -/
def bulkLayers (id0 : Nat) : List ChatRecord → List LayerObj
  | [] => []
  | it :: rest => chatLineLayer id0 it :: bulkLayers (id0 + 1) rest

/-- Translation of handleBulkAddText from src/components/App.tsx: append the
chat-line layers in input order; the selection is not touched. -/
def handleBulkAddText (st : AppState) (items : List ChatRecord) : AppState :=
  { st with
    layers := st.layers ++ bulkLayers st.nextId items
    nextId := st.nextId + items.length }

/-- Translation of the image-load completion of handleAddBaseImage from
src/components/App.tsx: snap the canvas to the bitmap's dimensions and put
the locked base layer at the bottom of the order. -/
def handleAddBaseImage (st : AppState) (src : String) (w h : ℚ) : AppState :=
  let nl : LayerObj :=
    { id := st.nextId
      type := LayerType.image
      name := "Base Image"
      visible := true
      locked := true
      x := 0
      y := 0
      src := src
      width := w
      height := h
      scale := 1
      rotation := 0
      filters := ⟨100, 100, 100, 0⟩
      content := ""
      fontSize := 0
      fontFamily := ""
      color := ""
      strokeColor := ""
      strokeWidth := 0
      shadowBlur := 0
      lineHeight := 0
      isBold := false
      isItalic := false }
  { st with
    canvasWidth := w
    canvasHeight := h
    layers := nl :: st.layers
    nextId := st.nextId + 1 }

/-- Translation of updateLayer from src/components/App.tsx: spread the patch
over every layer whose id matches. -/
def updateLayer (st : AppState) (id : Nat) (updates : LayerPatch) : AppState :=
  { st with
    layers := st.layers.map (fun l => if l.id == id then applyPatch l updates else l) }

/-- Translation of deleteLayer from src/components/App.tsx: drop the layers
whose id matches and clear the selection when it pointed at that id. -/
def deleteLayer (st : AppState) (id : Nat) : AppState :=
  { st with
    layers := st.layers.filter (fun l => l.id != id)
    selectedLayerId :=
      if st.selectedLayerId = some id then none else st.selectedLayerId }

/-- Translation of duplicateLayer from src/components/App.tsx: clone the
selected layer under a fresh id with the name suffixed and the position
offset, append it at the top and select it; without a selection, or when no
layer carries the selected id, nothing happens. -/
def duplicateLayer (st : AppState) : AppState :=
  match st.selectedLayerId with
  | none => st
  | some sid =>
    match st.layers.find? (fun l => l.id == sid) with
    | none => st
    | some original =>
      let copy : LayerObj :=
        { original with
          id := st.nextId
          name := original.name ++ " (Copy)"
          x := original.x + 20
          y := original.y + 20 }
      { st with
        layers := st.layers ++ [copy]
        selectedLayerId := some copy.id
        nextId := st.nextId + 1 }

/-- Translation of reorderLayers from src/components/App.tsx, which removes
one element with splice and reinserts it with splice.  Both splice calls
clamp their index into the array's range, so an insertion index past the end
lands at the end.  A removal index past the end would make the source insert
an undefined entry; its only caller passes indices inside the range, and the
model keeps the sequence unchanged on that branch. -/
def reorderLayers (layers : List LayerObj) (fromIndex toIndex : Nat) :
    List LayerObj :=
  if h : fromIndex < layers.length then
    (layers.take fromIndex ++ layers.drop (fromIndex + 1)).take toIndex ++
      layers.get ⟨fromIndex, h⟩ ::
        (layers.take fromIndex ++ layers.drop (fromIndex + 1)).drop toIndex
  else layers

/-- The reorder operation on the session state. -/
def reorderOp (st : AppState) (fromIndex toIndex : Nat) : AppState :=
  { st with layers := reorderLayers st.layers fromIndex toIndex }

/-- The approximate hit box of a Text layer from handleMouseDown in
src/components/CanvasRenderer.tsx: height from the line count, width from
the character count at half the font size per character. -/
def textHit (tl : LayerObj) (mx my : ℚ) : Bool :=
  let h := tl.fontSize * tl.lineHeight * ((splitLines tl.content).length : ℚ)
  let w := (tl.content.data.length : ℚ) * (tl.fontSize * (1 / 2))
  decide (tl.x ≤ mx) && decide (mx ≤ tl.x + w) &&
  decide (tl.y ≤ my) && decide (my ≤ tl.y + h)

/-- The hit box of an Image layer: its scaled bounding rectangle. -/
def imageHit (il : LayerObj) (mx my : ℚ) : Bool :=
  let w := il.width * il.scale
  let h := il.height * il.scale
  decide (il.x ≤ mx) && decide (mx ≤ il.x + w) &&
  decide (il.y ≤ my) && decide (my ≤ il.y + h)

/-- The hit predicate of handleMouseDown: invisible and locked layers never
hit; the others hit by their variant's box. -/
def layerHit (l : LayerObj) (mx my : ℚ) : Bool :=
  if !l.visible || l.locked then false
  else
    match l.type with
    | LayerType.text => textHit l mx my
    | LayerType.image => imageHit l mx my

/-- The hit test of handleMouseDown: the first hit layer of the reversed
sequence, that is the topmost hit layer. -/
def hitTest (layers : List LayerObj) (mx my : ℚ) : Option LayerObj :=
  layers.reverse.find? (fun l => layerHit l mx my)

/-- Translation of the selection effect of handleMouseDown from
src/components/CanvasRenderer.tsx, with the pointer already in layer space
as the component computes it; the drag bookkeeping does not touch the layer
sequence and is not modelled. -/
def handleMouseDown (st : AppState) (mx my : ℚ) : AppState :=
  match hitTest st.layers mx my with
  | some clicked => { st with selectedLayerId := some clicked.id }
  | none => { st with selectedLayerId := none }

/-- Translation of the render loop of src/components/CanvasRenderer.tsx: the
layers drawn, in drawing order, are the visible layers in sequence order. -/
def drawnLayers (layers : List LayerObj) : List LayerObj :=
  layers.filter (fun l => l.visible)

/-- The store operations reachable from the UI, for the whole-session
invariant. -/
inductive Op where
  | addBaseImage (src : String) (w h : ℚ)
  | addText (text color : String) (yOffset : Option ℚ)
  | bulkAddText (items : List ChatRecord)
  | update (id : Nat) (updates : LayerPatch)
  | delete (id : Nat)
  | duplicate
  | reorder (fromIndex toIndex : Nat)
  | mouseDown (mx my : ℚ)

/-- One step of the session: dispatch an operation to its handler. -/
def step (st : AppState) : Op → AppState
  | Op.addBaseImage src w h => handleAddBaseImage st src w h
  | Op.addText t c yo => handleAddText st t c yo
  | Op.bulkAddText items => handleBulkAddText st items
  | Op.update id p => updateLayer st id p
  | Op.delete id => deleteLayer st id
  | Op.duplicate => duplicateLayer st
  | Op.reorder f t => reorderOp st f t
  | Op.mouseDown mx my => handleMouseDown st mx my

/-- Run a sequence of operations from the empty session. -/
def run (ops : List Op) : AppState := ops.foldl step initialState

/-- The selection invariant: the selected id, when present, belongs to a
layer of the sequence. -/
def selectionOkB (st : AppState) : Bool :=
  match st.selectedLayerId with
  | none => true
  | some sid => st.layers.any (fun l => l.id == sid)

/-- An operation keeps layer ids when it is not an update whose patch gives
the id field. -/
def opKeepsIds : Op → Bool
  | Op.update _ p => p.id == none
  | _ => true

/-- Color classification as the spec words it: the rules applied to the
timestamp-stripped line itself, with the substring checks case-insensitive.
It is compared with the source's detectChatColor, which lower-cases the line
once and checks the lowered text throughout. -/
def detectChatColorSpec (line : String) : String :=
  if startsWithStr line "*" then "#C2A2DA"
  else if includesStr (toLowerStr line) "says:" ||
          includesStr (toLowerStr line) "shouts:" ||
          includesStr (toLowerStr line) "whispers:" then "#FFFFFF"
  else if startsWithStr line "((" || endsWithStr line "))" then "#A9C4E4"
  else "#FFFFFF"

/-- A small concrete text layer used by the concrete instances; its numeric
fields are whole numbers so that concrete equalities evaluate inside the
kernel. -/
def mkL (n : Nat) : LayerObj :=
  { id := n
    type := LayerType.text
    name := "L"
    visible := true
    locked := false
    x := 0
    y := 0
    src := ""
    width := 0
    height := 0
    scale := 0
    rotation := 0
    filters := ⟨0, 0, 0, 0⟩
    content := "L"
    fontSize := 14
    fontFamily := "Arial"
    color := "#FFFFFF"
    strokeColor := "#000000"
    strokeWidth := 2
    shadowBlur := 0
    lineHeight := 1
    isBold := true
    isItalic := false }

end WebSSRP

namespace WebSSRP

/-! Character-level helper lemmas. -/

theorem charToNatOfNatValid (n : Nat) (h : n.isValidChar) :
    (Char.ofNat n).toNat = n := by
  unfold Char.ofNat
  rw [dif_pos h]
  rfl

theorem charToLowerEqLowIff (c d : Char) (hd : d.toNat < 65) :
    (Char.toLower c = d) ↔ c = d := by
  show (if c.toNat ≥ 65 ∧ c.toNat ≤ 90 then Char.ofNat (c.toNat + 32) else c) = d
    ↔ c = d
  by_cases hc : c.toNat ≥ 65 ∧ c.toNat ≤ 90
  · rw [if_pos hc]
    have hv : (c.toNat + 32).isValidChar := by
      left
      omega
    have hval : (Char.ofNat (c.toNat + 32)).toNat = c.toNat + 32 :=
      charToNatOfNatValid _ hv
    constructor
    · intro he
      exfalso
      rw [he] at hval
      omega
    · intro he
      exfalso
      subst he
      omega
  · rw [if_neg hc]

theorem beq_toLower_of_low (c p : Char) (hp : p.toNat < 65) :
    (p == Char.toLower c) = (p == c) := by
  have hiff := charToLowerEqLowIff c p hp
  rw [Bool.eq_iff_iff]
  simp only [beq_iff_eq]
  constructor
  · intro h2
    exact (hiff.mp h2.symm).symm
  · intro h2
    exact (hiff.mpr h2.symm).symm

theorem isPrefixOf_lowerChars (pat : List Char)
    (hp : ∀ c ∈ pat, c.toNat < 65) :
    ∀ l : List Char, List.isPrefixOf pat (lowerChars l) = List.isPrefixOf pat l := by
  induction pat with
  | nil => intro l; simp [List.isPrefixOf]
  | cons p ps ih =>
    intro l
    cases l with
    | nil => simp [lowerChars]
    | cons c cs =>
      simp only [lowerChars, List.map_cons, List.isPrefixOf]
      rw [beq_toLower_of_low c p (hp p (by simp))]
      have := ih (fun d hd => hp d (List.mem_cons_of_mem _ hd)) cs
      rw [show (List.map Char.toLower cs) = lowerChars cs from rfl, this]

theorem isSuffixOf_lowerChars (pat : List Char)
    (hp : ∀ c ∈ pat, c.toNat < 65) :
    ∀ l : List Char, List.isSuffixOf pat (lowerChars l) = List.isSuffixOf pat l := by
  intro l
  show List.isPrefixOf pat.reverse (lowerChars l).reverse =
    List.isPrefixOf pat.reverse l.reverse
  rw [show (lowerChars l).reverse = lowerChars l.reverse by
    simp [lowerChars, List.map_reverse]]
  exact isPrefixOf_lowerChars pat.reverse
    (fun c hc => hp c (List.mem_reverse.mp hc)) l.reverse

theorem startsWithStr_lower_parens (s : String) :
    startsWithStr (toLowerStr s) "((" = startsWithStr s "((" := by
  show List.isPrefixOf "((".data (lowerChars s.data) = List.isPrefixOf "((".data s.data
  exact isPrefixOf_lowerChars _ (by decide) _

theorem endsWithStr_lower_parens (s : String) :
    endsWithStr (toLowerStr s) "))" = endsWithStr s "))" := by
  show List.isSuffixOf "))".data (lowerChars s.data) = List.isSuffixOf "))".data s.data
  exact isSuffixOf_lowerChars _ (by decide) _

theorem detectChatColor_eq_spec (s : String) :
    detectChatColor s = detectChatColorSpec s := by
  by_cases h1 : startsWithStr s "*" = true <;>
    by_cases h2 : includesStr (toLowerStr s) "says:" = true <;>
    by_cases h3 : includesStr (toLowerStr s) "shouts:" = true <;>
    by_cases h4 : includesStr (toLowerStr s) "whispers:" = true <;>
    simp [detectChatColor, detectChatColorSpec, startsWithStr_lower_parens,
      endsWithStr_lower_parens, h1, h2, h3, h4]

/-! Chatlog parser lemmas. -/

theorem parseChatlogLines_length (ls : List String) :
    ∀ y : ℚ, (parseChatlogLines y ls).length = ls.length := by
  induction ls with
  | nil => intro y; rfl
  | cons l rest ih =>
    intro y
    simp [parseChatlogLines, ih]

theorem parseChatlogLines_map_content (ls : List String) :
    ∀ y : ℚ, (parseChatlogLines y ls).map ChatRecord.content = ls.map stripTimestamp := by
  induction ls with
  | nil => intro y; rfl
  | cons l rest ih =>
    intro y
    simp [parseChatlogLines, ih]

theorem parseChatlogLines_y (ls : List String) :
    ∀ (y : ℚ) (i : Nat) (h : i < (parseChatlogLines y ls).length),
      ((parseChatlogLines y ls).get ⟨i, h⟩).y = y + 24 * i := by
  induction ls with
  | nil =>
    intro y i h
    simp [parseChatlogLines] at h
  | cons l rest ih =>
    intro y i h
    cases i with
    | zero => simp [parseChatlogLines]
    | succ j =>
      have hj : j < (parseChatlogLines (y + 24) rest).length := by
        simpa [parseChatlogLines] using h
      have := ih (y + 24) j hj
      simp only [parseChatlogLines, List.get_cons_succ]
      rw [this]
      push_cast
      ring

theorem parseChatlogLines_color (ls : List String) :
    ∀ (y : ℚ) (rec : ChatRecord), rec ∈ parseChatlogLines y ls →
      rec.color = detectChatColor rec.content := by
  induction ls with
  | nil => intro y rec h; simp [parseChatlogLines] at h
  | cons l rest ih =>
    intro y rec h
    simp only [parseChatlogLines, List.mem_cons] at h
    rcases h with h | h
    · subst h; rfl
    · exact ih (y + 24) rec h

/-- C3: on the input with an action line, a says line and an OOC line,
parseChatlog returns exactly three records with colors #C2A2DA, #FFFFFF and
#A9C4E4 and y-values 50, 74 and 98; in general the i-th record with the
default start offset sits at y = 50 + 24 i, and every record's color is the
first matching rule of the spec's ordered rule list applied to the
timestamp-stripped line. -/
theorem claim_C3 :
    parseChatlog "* waves\nStranger says: hi\n(( ooc ))" 50 =
      [⟨"* waves", "#C2A2DA", 50⟩,
       ⟨"Stranger says: hi", "#FFFFFF", 74⟩,
       ⟨"(( ooc ))", "#A9C4E4", 98⟩]
  ∧ (∀ (raw : String) (i : Nat) (h : i < (parseChatlog raw 50).length),
      ((parseChatlog raw 50).get ⟨i, h⟩).y = 50 + 24 * i)
  ∧ (∀ (raw : String) (startY : ℚ), ∀ rec ∈ parseChatlog raw startY,
      rec.color = detectChatColorSpec rec.content) := by
  refine ⟨?_, ?_, ?_⟩
  · have h : (splitLines "* waves\nStranger says: hi\n(( ooc ))").filter
        (fun l => !isBlank l) = ["* waves", "Stranger says: hi", "(( ooc ))"] := by
      decide
    rw [parseChatlog, h]
    simp only [parseChatlogLines, List.cons.injEq, ChatRecord.mk.injEq]
    exact ⟨⟨by decide, by decide, by norm_num⟩, ⟨by decide, by decide, by norm_num⟩,
      ⟨by decide, by decide, by norm_num⟩, trivial⟩
  · intro raw i h
    exact parseChatlogLines_y _ 50 i h
  · intro raw startY rec hrec
    rw [parseChatlogLines_color _ startY rec hrec]
    exact detectChatColor_eq_spec rec.content

/-- Witness for C3 at the one-line input: the index bound and the membership
hypothesis hold at the concrete record and the conclusions follow from the
theorem. -/
theorem claim_C3_witness :
    (0 < (parseChatlog "abc" 50).length
      ∧ ((parseChatlog "abc" 50).get ⟨0, by decide⟩).y = 50 + 24 * 0)
  ∧ ((⟨"abc", "#FFFFFF", 50⟩ : ChatRecord) ∈ parseChatlog "abc" 50
      ∧ (⟨"abc", "#FFFFFF", 50⟩ : ChatRecord).color =
          detectChatColorSpec (⟨"abc", "#FFFFFF", 50⟩ : ChatRecord).content) :=
  ⟨⟨by decide, claim_C3.2.1 "abc" 0 (by decide)⟩,
   ⟨by decide, claim_C3.2.2 "abc" 50 ⟨"abc", "#FFFFFF", 50⟩ (by decide)⟩⟩

/-- C4: parseChatlog yields one record per line that is non-blank after
trimming, in input order, with a leading bracketed two-digit
hour:minute:second timestamp stripped; in particular a says line with a
timestamp keeps only the text after it, and blank lines are dropped without
consuming vertical pitch. -/
theorem claim_C4 :
    (∀ (raw : String) (startY : ℚ),
      (parseChatlog raw startY).map ChatRecord.content =
        ((splitLines raw).filter (fun l => !isBlank l)).map stripTimestamp
      ∧ (parseChatlog raw startY).length =
          ((splitLines raw).filter (fun l => !isBlank l)).length)
  ∧ (∀ (h1 h2 m1 m2 s1 s2 : Char) (rest : List Char),
      h1.isDigit = true → h2.isDigit = true → m1.isDigit = true →
      m2.isDigit = true → s1.isDigit = true → s2.isDigit = true →
      stripTimestamp (String.mk
        ('[' :: h1 :: h2 :: ':' :: m1 :: m2 :: ':' :: s1 :: s2 :: ']' :: rest)) =
        String.mk (rest.dropWhile isJsSpace))
  ∧ stripTimestamp "[12:00:00] Stranger says: hi" = "Stranger says: hi"
  ∧ (parseChatlog "[12:00:00] Stranger says: hi" 50).map ChatRecord.content =
      ["Stranger says: hi"]
  ∧ parseChatlog "a\n\n \nb" 50 = [⟨"a", "#FFFFFF", 50⟩, ⟨"b", "#FFFFFF", 74⟩] := by
  refine ⟨?_, ?_, by decide, by decide, ?_⟩
  · intro raw startY
    refine ⟨parseChatlogLines_map_content _ startY, ?_⟩
    rw [parseChatlog, parseChatlogLines_length]
  · intro h1 h2 m1 m2 s1 s2 rest d1 d2 d3 d4 d5 d6
    simp [stripTimestamp, d1, d2, d3, d4, d5, d6]
  · have h : (splitLines "a\n\n \nb").filter (fun l => !isBlank l) = ["a", "b"] := by
      decide
    rw [parseChatlog, h]
    simp only [parseChatlogLines, List.cons.injEq, ChatRecord.mk.injEq]
    exact ⟨⟨by decide, by decide, by norm_num⟩,
      ⟨by decide, by decide, by norm_num⟩, trivial⟩

/-- Witness for C4: the digit hypotheses hold at a concrete timestamped line
and the stripping conclusion follows from the theorem. -/
theorem claim_C4_witness :
    ('1'.isDigit = true ∧ '2'.isDigit = true ∧ '3'.isDigit = true ∧
      '4'.isDigit = true ∧ '5'.isDigit = true ∧ '6'.isDigit = true)
  ∧ stripTimestamp (String.mk
      ('[' :: '1' :: '2' :: ':' :: '3' :: '4' :: ':' :: '5' :: '6' :: ']' ::
        ' ' :: 'x' :: [])) = String.mk ['x'] :=
  ⟨⟨by decide, by decide, by decide, by decide, by decide, by decide⟩,
   claim_C4.2.1 '1' '2' '3' '4' '5' '6' [' ', 'x'] (by decide) (by decide)
     (by decide) (by decide) (by decide) (by decide)⟩

/-! Reorder lemmas. -/

theorem reorderLayers_perm (layers : List LayerObj) (fromIndex toIndex : Nat) :
    (reorderLayers layers fromIndex toIndex).Perm layers := by
  unfold reorderLayers
  by_cases h : fromIndex < layers.length
  · rw [dif_pos h]
    have h1 : ((layers.take fromIndex ++ layers.drop (fromIndex + 1)).take toIndex ++
        layers.get ⟨fromIndex, h⟩ ::
          (layers.take fromIndex ++ layers.drop (fromIndex + 1)).drop toIndex).Perm
        (layers.get ⟨fromIndex, h⟩ ::
          (layers.take fromIndex ++ layers.drop (fromIndex + 1))) := by
      have := @List.perm_middle _ (layers.get ⟨fromIndex, h⟩)
        ((layers.take fromIndex ++ layers.drop (fromIndex + 1)).take toIndex)
        ((layers.take fromIndex ++ layers.drop (fromIndex + 1)).drop toIndex)
      rw [List.take_append_drop] at this
      exact this
    have h2 : (layers.get ⟨fromIndex, h⟩ ::
        (layers.take fromIndex ++ layers.drop (fromIndex + 1))).Perm layers := by
      have hl : layers = layers.take fromIndex ++
          layers.get ⟨fromIndex, h⟩ :: layers.drop (fromIndex + 1) := by
        conv_lhs => rw [← List.take_append_drop fromIndex layers]
        rw [List.drop_eq_getElem_cons h]
        rfl
      conv_rhs => rw [hl]
      exact List.perm_middle.symm
    exact h1.trans h2
  · rw [dif_neg h]

theorem reorderLayers_oob (layers : List LayerObj) (fromIndex toIndex : Nat)
    (h : fromIndex < layers.length) (ht : layers.length ≤ toIndex) :
    reorderLayers layers fromIndex toIndex =
      (layers.take fromIndex ++ layers.drop (fromIndex + 1)) ++
        [layers.get ⟨fromIndex, h⟩] := by
  unfold reorderLayers
  rw [dif_pos h]
  have hlen : (layers.take fromIndex ++ layers.drop (fromIndex + 1)).length =
      layers.length - 1 := by
    rw [List.length_append, List.length_take, List.length_drop]
    omega
  have hle : (layers.take fromIndex ++ layers.drop (fromIndex + 1)).length ≤ toIndex := by
    omega
  rw [List.take_of_length_le hle, List.drop_eq_nil_of_le hle]

/-- C1: the claim states that an out-of-bounds target index makes reorder a
no-op; the source removes the element with splice and reinserts it with
splice, and splice clamps the insertion index to the array's end, so the
element moves to the end instead.  Amended: reorder with a valid source
index moves exactly one element, keeping the multiset of layers, and an
out-of-bounds target index puts the moved element at the end of the
sequence; reorder(0, 5) on a 3-element sequence yields the rotation
[second, third, first]. -/
theorem claim_C1 :
    (∀ (layers : List LayerObj) (fromIndex toIndex : Nat)
      (hf : fromIndex < layers.length),
      (reorderLayers layers fromIndex toIndex).Perm layers
      ∧ (reorderLayers layers fromIndex toIndex).length = layers.length
      ∧ (layers.length ≤ toIndex →
          reorderLayers layers fromIndex toIndex =
            (layers.take fromIndex ++ layers.drop (fromIndex + 1)) ++
              [layers.get ⟨fromIndex, hf⟩]))
  ∧ reorderLayers [mkL 0, mkL 1, mkL 2] 0 5 = [mkL 1, mkL 2, mkL 0] := by
  refine ⟨?_, by decide⟩
  intro layers fromIndex toIndex h
  refine ⟨reorderLayers_perm layers fromIndex toIndex,
    (reorderLayers_perm layers fromIndex toIndex).length_eq, ?_⟩
  intro ht
  exact reorderLayers_oob layers fromIndex toIndex h ht

/-- Counterexample to C1 as stated: reorder(0, 5) on a 3-element sequence is
not a no-op. -/
theorem claim_C1_counterexample :
    reorderLayers [mkL 0, mkL 1, mkL 2] 0 5 ≠ [mkL 0, mkL 1, mkL 2] := by
  decide

/-- Witness for C1: the source-index bound holds on a singleton sequence and
the permutation conclusion follows from the theorem. -/
theorem claim_C1_witness :
    0 < ([mkL 0] : List LayerObj).length
  ∧ (reorderLayers [mkL 0] 0 0).Perm [mkL 0] :=
  ⟨by decide, (claim_C1.1 [mkL 0] 0 0 (by decide)).1⟩

/-- C2: the claim states that a given explicitY is always used; the source
declares the offset parameter with default 0 and selects it by truthiness,
so a given offset of 0 falls back to the computed position exactly as a
missing offset does.  Amended: a given nonzero explicitY is used as the y
position, while no offset and a zero offset place the layer at 50 when no
Text layer exists and below the last Text layer's block otherwise; the
fixed defaults, the append at the top of the order and the new selection are
as claimed, and the two-add example lands at 50 and 66.8. -/
theorem claim_C2 :
    (∀ (st : AppState) (text color : String) (yo : Option ℚ),
      yo.getD 0 = 0 → lastTextLayer st.layers = none →
      (newTextLayer st text color yo).y = 50)
  ∧ (∀ (st : AppState) (text color : String) (yo : Option ℚ) (last : LayerObj),
      yo.getD 0 = 0 → lastTextLayer st.layers = some last →
      (newTextLayer st text color yo).y = last.y + last.fontSize * last.lineHeight)
  ∧ (∀ (st : AppState) (text color : String) (yv : ℚ), yv ≠ 0 →
      (newTextLayer st text color (some yv)).y = yv)
  ∧ (∀ (st : AppState) (text color : String) (yo : Option ℚ),
      (newTextLayer st text color yo).fontSize = 14
      ∧ (newTextLayer st text color yo).isBold = true
      ∧ (newTextLayer st text color yo).strokeWidth = 2
      ∧ (newTextLayer st text color yo).lineHeight = 1.2
      ∧ (handleAddText st text color yo).layers =
          st.layers ++ [newTextLayer st text color yo]
      ∧ (handleAddText st text color yo).selectedLayerId =
          some (newTextLayer st text color yo).id)
  ∧ ((handleAddText (handleAddText initialState "one" "#FFFFFF" none)
        "two" "#FFFFFF" none).layers.map (fun l => l.y)) = [50, 66.8] := by
  refine ⟨?_, ?_, ?_, ?_, ?_⟩
  · intro st text color yo h0 hnone
    simp [newTextLayer, addTextStartY, h0, hnone]
  · intro st text color yo last h0 hsome
    simp [newTextLayer, addTextStartY, h0, hsome]
  · intro st text color yv hv
    simp [newTextLayer, hv]
  · intro st text color yo
    exact ⟨rfl, rfl, rfl, rfl, rfl, rfl⟩
  · have hmap : (handleAddText (handleAddText initialState "one" "#FFFFFF" none)
        "two" "#FFFFFF" none).layers.map (fun l => l.y) =
        [(newTextLayer initialState "one" "#FFFFFF" none).y,
         (newTextLayer (handleAddText initialState "one" "#FFFFFF" none)
           "two" "#FFFFFF" none).y] := rfl
    have y1 : (newTextLayer initialState "one" "#FFFFFF" none).y = 50 := rfl
    have y2 : (newTextLayer (handleAddText initialState "one" "#FFFFFF" none)
        "two" "#FFFFFF" none).y = 50 + 14 * 1.2 := rfl
    rw [hmap, y1, y2]
    norm_num

/-- Counterexample to C2 as stated: the explicitly given offset 0 is not
used; the layer lands at the computed position 50 instead. -/
theorem claim_C2_counterexample :
    (newTextLayer initialState "hi" "#FFFFFF" (some 0)).y = 50
  ∧ (newTextLayer initialState "hi" "#FFFFFF" (some 0)).y ≠ 0 := by
  decide

/-- Witness for C2: the nonzero-offset hypothesis holds at 7 and the layer
takes that position by the theorem. -/
theorem claim_C2_witness :
    (7 : ℚ) ≠ 0 ∧ (newTextLayer initialState "w" "#FFFFFF" (some 7)).y = 7 :=
  ⟨by norm_num, claim_C2.2.2.1 initialState "w" "#FFFFFF" 7 (by norm_num)⟩

/-- C5: deleteLayer removes exactly the layers carrying the given id and
keeps every other layer; deleting the selected layer clears the selection,
deleting a non-selected layer leaves the selection unchanged, and when no
layer carries the id the whole state is unchanged, provided the selection
points at a layer of the sequence, which the reachable-state invariant
guarantees. -/
theorem claim_C5 (st : AppState) (id : Nat) :
    ((deleteLayer st id).layers = st.layers.filter (fun l => l.id != id))
  ∧ (∀ l ∈ st.layers, l.id ≠ id → l ∈ (deleteLayer st id).layers)
  ∧ (∀ l ∈ (deleteLayer st id).layers, l ∈ st.layers ∧ l.id ≠ id)
  ∧ (st.selectedLayerId = some id → (deleteLayer st id).selectedLayerId = none)
  ∧ (st.selectedLayerId ≠ some id →
      (deleteLayer st id).selectedLayerId = st.selectedLayerId)
  ∧ ((∀ l ∈ st.layers, l.id ≠ id) → selectionOkB st = true →
      deleteLayer st id = st) := by
  refine ⟨rfl, ?_, ?_, ?_, ?_, ?_⟩
  · intro l hl hne
    show l ∈ st.layers.filter (fun l => l.id != id)
    rw [List.mem_filter]
    exact ⟨hl, bne_iff_ne.mpr hne⟩
  · intro l hl
    have hl2 : l ∈ st.layers.filter (fun l => l.id != id) := hl
    rw [List.mem_filter] at hl2
    exact ⟨hl2.1, bne_iff_ne.mp hl2.2⟩
  · intro h
    simp [deleteLayer, h]
  · intro h
    simp [deleteLayer, h]
  · intro hno hsel
    have hl : st.layers.filter (fun l => l.id != id) = st.layers :=
      List.filter_eq_self.mpr (fun l hl => bne_iff_ne.mpr (hno l hl))
    have hs : ¬ st.selectedLayerId = some id := by
      intro he
      unfold selectionOkB at hsel
      rw [he] at hsel
      rcases List.any_eq_true.mp hsel with ⟨l, hml, hid⟩
      exact hno l hml (by simpa using hid)
    unfold deleteLayer
    rw [hl, if_neg hs]

/-- Witness for C5: deleting the unknown id 5 in a one-layer session leaves
the selection unchanged; the non-selection hypothesis holds there. -/
theorem claim_C5_witness :
    ((handleAddText initialState "a" "#FFFFFF" none).selectedLayerId ≠ some 5)
  ∧ (deleteLayer (handleAddText initialState "a" "#FFFFFF" none) 5).selectedLayerId =
      (handleAddText initialState "a" "#FFFFFF" none).selectedLayerId :=
  ⟨by decide, (claim_C5 (handleAddText initialState "a" "#FFFFFF" none) 5).2.2.2.2.1
    (by decide)⟩

/-- C6: duplicating the selected layer and then deleting the original leaves
exactly one layer derived from it, the clone: it carries the fresh id, the
name suffixed with " (Copy)" (so ending in "(Copy)"), the position offset by
(+20, +20), every other field equal to the original's; the clone is appended
at the top of the order and is the selection, before and after the delete. -/
theorem claim_C6 (st : AppState) (sid : Nat) (original : LayerObj)
    (hsel : st.selectedLayerId = some sid)
    (hfind : st.layers.find? (fun l => l.id == sid) = some original)
    (hfresh : ∀ l ∈ st.layers, l.id ≠ st.nextId) :
    ∃ copy : LayerObj,
      duplicateLayer st =
        { st with
          layers := st.layers ++ [copy]
          selectedLayerId := some copy.id
          nextId := st.nextId + 1 }
      ∧ (deleteLayer (duplicateLayer st) sid).layers =
          st.layers.filter (fun l => l.id != sid) ++ [copy]
      ∧ (deleteLayer (duplicateLayer st) sid).selectedLayerId = some copy.id
      ∧ copy.id = st.nextId
      ∧ copy.id ≠ sid
      ∧ (∀ l ∈ st.layers, l.id ≠ copy.id)
      ∧ copy.x = original.x + 20
      ∧ copy.y = original.y + 20
      ∧ copy.name = original.name ++ " (Copy)"
      ∧ endsWithStr copy.name "(Copy)" = true
      ∧ copy.type = original.type ∧ copy.visible = original.visible
      ∧ copy.locked = original.locked ∧ copy.src = original.src
      ∧ copy.width = original.width ∧ copy.height = original.height
      ∧ copy.scale = original.scale ∧ copy.rotation = original.rotation
      ∧ copy.filters = original.filters ∧ copy.content = original.content
      ∧ copy.fontSize = original.fontSize ∧ copy.fontFamily = original.fontFamily
      ∧ copy.color = original.color ∧ copy.strokeColor = original.strokeColor
      ∧ copy.strokeWidth = original.strokeWidth
      ∧ copy.shadowBlur = original.shadowBlur
      ∧ copy.lineHeight = original.lineHeight
      ∧ copy.isBold = original.isBold ∧ copy.isItalic = original.isItalic := by
  have horigmem : original ∈ st.layers := List.mem_of_find?_eq_some hfind
  have horigid : original.id = sid := by
    have := List.find?_some hfind
    simpa using this
  have hsidfresh : sid ≠ st.nextId := horigid ▸ hfresh original horigmem
  refine ⟨{ original with
      id := st.nextId
      name := original.name ++ " (Copy)"
      x := original.x + 20
      y := original.y + 20 }, ?_, ?_, ?_, rfl, ?_, ?_, rfl, rfl, rfl, ?_,
    rfl, rfl, rfl, rfl, rfl, rfl, rfl, rfl, rfl, rfl, rfl, rfl, rfl, rfl,
    rfl, rfl, rfl, rfl, rfl⟩
  · unfold duplicateLayer
    rw [hsel]
    show (match st.layers.find? (fun l : LayerObj => l.id == sid) with
      | none => st
      | some original => _) = _
    rw [hfind]
  · have hdup : (duplicateLayer st).layers = st.layers ++
        [{ original with
            id := st.nextId
            name := original.name ++ " (Copy)"
            x := original.x + 20
            y := original.y + 20 }] := by
      unfold duplicateLayer
      rw [hsel]
      show (match st.layers.find? (fun l : LayerObj => l.id == sid) with
        | none => st
        | some original => _).layers = _
      rw [hfind]
    show (duplicateLayer st).layers.filter (fun l => l.id != sid) = _
    rw [hdup, List.filter_append]
    congr 1
    simp [Ne.symm hsidfresh]
  · have hdupsel : (duplicateLayer st).selectedLayerId = some st.nextId := by
      unfold duplicateLayer
      rw [hsel]
      show (match st.layers.find? (fun l : LayerObj => l.id == sid) with
        | none => st
        | some original => _).selectedLayerId = _
      rw [hfind]
    show (if (duplicateLayer st).selectedLayerId = some sid then none
      else (duplicateLayer st).selectedLayerId) = _
    rw [hdupsel, if_neg (by
      simp only [Option.some.injEq]
      exact Ne.symm hsidfresh)]
  · exact fun h => hsidfresh h.symm
  · intro l hl
    exact hfresh l hl
  · show List.isSuffixOf "(Copy)".data (original.name ++ " (Copy)").data = true
    rw [List.isSuffixOf_iff_suffix, String.data_append]
    exact ⟨original.name.data ++ [' '], by simp⟩

/-- Witness for C6: in a one-layer session with the layer selected, the
selection, lookup and freshness hypotheses hold and the round-trip
conclusion follows from the theorem. -/
theorem claim_C6_witness :
    ((handleAddText initialState "a" "#FFFFFF" none).selectedLayerId = some 0
      ∧ (handleAddText initialState "a" "#FFFFFF" none).layers.find?
          (fun l => l.id == 0) = some (newTextLayer initialState "a" "#FFFFFF" none))
  ∧ ∃ copy : LayerObj,
      duplicateLayer (handleAddText initialState "a" "#FFFFFF" none) =
        { handleAddText initialState "a" "#FFFFFF" none with
          layers := (handleAddText initialState "a" "#FFFFFF" none).layers ++ [copy]
          selectedLayerId := some copy.id
          nextId := (handleAddText initialState "a" "#FFFFFF" none).nextId + 1 }
      ∧ (deleteLayer (duplicateLayer (handleAddText initialState "a" "#FFFFFF" none))
          0).layers =
          (handleAddText initialState "a" "#FFFFFF" none).layers.filter
            (fun l => l.id != 0) ++ [copy]
      ∧ (deleteLayer (duplicateLayer (handleAddText initialState "a" "#FFFFFF" none))
          0).selectedLayerId = some copy.id
      ∧ copy.id = (handleAddText initialState "a" "#FFFFFF" none).nextId
      ∧ copy.id ≠ 0
      ∧ (∀ l ∈ (handleAddText initialState "a" "#FFFFFF" none).layers, l.id ≠ copy.id)
      ∧ copy.x = (newTextLayer initialState "a" "#FFFFFF" none).x + 20
      ∧ copy.y = (newTextLayer initialState "a" "#FFFFFF" none).y + 20
      ∧ copy.name = (newTextLayer initialState "a" "#FFFFFF" none).name ++ " (Copy)"
      ∧ endsWithStr copy.name "(Copy)" = true
      ∧ copy.type = (newTextLayer initialState "a" "#FFFFFF" none).type
      ∧ copy.visible = (newTextLayer initialState "a" "#FFFFFF" none).visible
      ∧ copy.locked = (newTextLayer initialState "a" "#FFFFFF" none).locked
      ∧ copy.src = (newTextLayer initialState "a" "#FFFFFF" none).src
      ∧ copy.width = (newTextLayer initialState "a" "#FFFFFF" none).width
      ∧ copy.height = (newTextLayer initialState "a" "#FFFFFF" none).height
      ∧ copy.scale = (newTextLayer initialState "a" "#FFFFFF" none).scale
      ∧ copy.rotation = (newTextLayer initialState "a" "#FFFFFF" none).rotation
      ∧ copy.filters = (newTextLayer initialState "a" "#FFFFFF" none).filters
      ∧ copy.content = (newTextLayer initialState "a" "#FFFFFF" none).content
      ∧ copy.fontSize = (newTextLayer initialState "a" "#FFFFFF" none).fontSize
      ∧ copy.fontFamily = (newTextLayer initialState "a" "#FFFFFF" none).fontFamily
      ∧ copy.color = (newTextLayer initialState "a" "#FFFFFF" none).color
      ∧ copy.strokeColor = (newTextLayer initialState "a" "#FFFFFF" none).strokeColor
      ∧ copy.strokeWidth = (newTextLayer initialState "a" "#FFFFFF" none).strokeWidth
      ∧ copy.shadowBlur = (newTextLayer initialState "a" "#FFFFFF" none).shadowBlur
      ∧ copy.lineHeight = (newTextLayer initialState "a" "#FFFFFF" none).lineHeight
      ∧ copy.isBold = (newTextLayer initialState "a" "#FFFFFF" none).isBold
      ∧ copy.isItalic = (newTextLayer initialState "a" "#FFFFFF" none).isItalic :=
  ⟨⟨rfl, rfl⟩,
   claim_C6 (handleAddText initialState "a" "#FFFFFF" none) 0
     (newTextLayer initialState "a" "#FFFFFF" none) rfl rfl (by decide)⟩

/-- C7: the claim states that updateLayer's merge always preserves the
discriminant tag; the source spreads an arbitrary update record over the
matching layer and casts the result, and the update type admits the
discriminant field, so a patch carrying it rewrites the tag.  Amended:
updateLayer shallow-merges the given fields into every layer whose id
matches (field by field, a given field overrides, a missing field keeps the
layer's value), leaves the other layers and the selection unchanged, is a
no-op on an unknown id, and preserves every layer's discriminant tag for
every patch that does not give the discriminant field. -/
theorem claim_C7 (st : AppState) (id : Nat) (p : LayerPatch) :
    ((updateLayer st id p).layers.length = st.layers.length)
  ∧ (∀ (i : Nat) (h : i < st.layers.length), (st.layers.get ⟨i, h⟩).id ≠ id →
      (updateLayer st id p).layers[i]? = some (st.layers.get ⟨i, h⟩))
  ∧ (∀ (i : Nat) (h : i < st.layers.length), (st.layers.get ⟨i, h⟩).id = id →
      (updateLayer st id p).layers[i]? = some (applyPatch (st.layers.get ⟨i, h⟩) p))
  ∧ (p.type = none →
      (updateLayer st id p).layers.map (fun l => l.type) =
        st.layers.map (fun l => l.type))
  ∧ (∀ l : LayerObj,
      (applyPatch l p).id = p.id.getD l.id
      ∧ (applyPatch l p).type = p.type.getD l.type
      ∧ (applyPatch l p).name = p.name.getD l.name
      ∧ (applyPatch l p).visible = p.visible.getD l.visible
      ∧ (applyPatch l p).locked = p.locked.getD l.locked
      ∧ (applyPatch l p).x = p.x.getD l.x
      ∧ (applyPatch l p).y = p.y.getD l.y
      ∧ (applyPatch l p).src = p.src.getD l.src
      ∧ (applyPatch l p).width = p.width.getD l.width
      ∧ (applyPatch l p).height = p.height.getD l.height
      ∧ (applyPatch l p).scale = p.scale.getD l.scale
      ∧ (applyPatch l p).rotation = p.rotation.getD l.rotation
      ∧ (applyPatch l p).filters = p.filters.getD l.filters
      ∧ (applyPatch l p).content = p.content.getD l.content
      ∧ (applyPatch l p).fontSize = p.fontSize.getD l.fontSize
      ∧ (applyPatch l p).fontFamily = p.fontFamily.getD l.fontFamily
      ∧ (applyPatch l p).color = p.color.getD l.color
      ∧ (applyPatch l p).strokeColor = p.strokeColor.getD l.strokeColor
      ∧ (applyPatch l p).strokeWidth = p.strokeWidth.getD l.strokeWidth
      ∧ (applyPatch l p).shadowBlur = p.shadowBlur.getD l.shadowBlur
      ∧ (applyPatch l p).lineHeight = p.lineHeight.getD l.lineHeight
      ∧ (applyPatch l p).isBold = p.isBold.getD l.isBold
      ∧ (applyPatch l p).isItalic = p.isItalic.getD l.isItalic)
  ∧ ((∀ l ∈ st.layers, l.id ≠ id) → updateLayer st id p = st)
  ∧ ((updateLayer st id p).selectedLayerId = st.selectedLayerId) := by
  refine ⟨by simp [updateLayer], ?_, ?_, ?_, ?_, ?_, rfl⟩
  · intro i h hne
    show (st.layers.map (fun l => if l.id == id then applyPatch l p else l))[i]? = _
    rw [List.getElem?_map, List.getElem?_eq_getElem h]
    simp only [Option.map_some']
    rw [if_neg (fun hc => hne (by simpa using hc))]
    rfl
  · intro i h heq
    show (st.layers.map (fun l => if l.id == id then applyPatch l p else l))[i]? = _
    rw [List.getElem?_map, List.getElem?_eq_getElem h]
    simp only [Option.map_some']
    rw [if_pos (beq_iff_eq.mpr (show (st.layers[i]).id = id from heq))]
    rfl
  · intro hp
    show (st.layers.map (fun l => if l.id == id then applyPatch l p else l)).map
      (fun l => l.type) = _
    rw [List.map_map]
    refine List.map_congr_left (fun l _ => ?_)
    show (if l.id == id then applyPatch l p else l).type = l.type
    by_cases hc : l.id == id
    · rw [if_pos hc]
      show p.type.getD l.type = l.type
      rw [hp]
      rfl
    · rw [if_neg hc]
  · intro l
    exact ⟨rfl, rfl, rfl, rfl, rfl, rfl, rfl, rfl, rfl, rfl, rfl, rfl, rfl,
      rfl, rfl, rfl, rfl, rfl, rfl, rfl, rfl, rfl, rfl⟩
  · intro hno
    show { st with layers := st.layers.map (fun l => if l.id == id then applyPatch l p else l) } = st
    have hmap : st.layers.map (fun l => if l.id == id then applyPatch l p else l) =
        st.layers := by
      rw [show st.layers.map (fun l => if l.id == id then applyPatch l p else l) =
          st.layers.map (fun l => l) from
        List.map_congr_left (fun l hl => if_neg (by simpa using hno l hl))]
      exact List.map_id st.layers
    rw [hmap]

/-- Counterexample to C7 as stated: the patch giving only the discriminant
field turns the base Image layer into a Text-tagged record, so the merge
does not preserve the tag for every partial field record. -/
theorem claim_C7_counterexample :
    ((updateLayer (handleAddBaseImage initialState "img" 100 100) 0
        { emptyPatch with type := some LayerType.text }).layers.map
      (fun l => l.type)) = [LayerType.text]
  ∧ ((handleAddBaseImage initialState "img" 100 100).layers.map
      (fun l => l.type)) = [LayerType.image] := by
  exact ⟨rfl, rfl⟩

/-- Witness for C7: the empty patch gives no discriminant field, and the tag
map is unchanged by the theorem. -/
theorem claim_C7_witness :
    emptyPatch.type = none
  ∧ (updateLayer (handleAddBaseImage initialState "img" 100 100) 0
      emptyPatch).layers.map (fun l => l.type) =
      (handleAddBaseImage initialState "img" 100 100).layers.map (fun l => l.type) :=
  ⟨rfl, (claim_C7 (handleAddBaseImage initialState "img" 100 100) 0
    emptyPatch).2.2.2.1 rfl⟩

/-! Hit-test lemmas. -/

theorem find?_reverse_topmost {α : Type} (p : α → Bool) (l : List α) (x : α)
    (hx : l.reverse.find? p = some x) :
    ∃ (i : Nat) (h : i < l.length), l.get ⟨i, h⟩ = x ∧ p x = true ∧
      ∀ (j : Nat) (hj : j < l.length), i < j → p (l.get ⟨j, hj⟩) = false := by
  induction l using List.reverseRecOn with
  | nil => simp at hx
  | append_singleton t a ih =>
    rw [show (t ++ [a]).reverse = a :: t.reverse by simp] at hx
    by_cases hpa : p a = true
    · rw [List.find?_cons_of_pos _ hpa] at hx
      have hax : a = x := by injection hx
      subst hax
      refine ⟨t.length, by simp, ?_, hpa, ?_⟩
      · show (t ++ [a])[t.length] = a
        rw [List.getElem_append_right (Nat.le_refl _)]
        simp
      · intro j hj hlt
        simp only [List.length_append, List.length_cons, List.length_nil] at hj
        omega
    · have hpa2 : p a = false := by
        cases h2 : p a
        · rfl
        · exact absurd h2 hpa
      rw [List.find?_cons_of_neg _ (by simp [hpa2])] at hx
      rcases ih hx with ⟨i, h, hget, hpx, htop⟩
      have h2 : i < (t ++ [a]).length := by
        simp only [List.length_append, List.length_cons, List.length_nil]
        omega
      refine ⟨i, h2, ?_, hpx, ?_⟩
      · show (t ++ [a])[i] = x
        rw [List.getElem_append_left h]
        exact hget
      · intro j hj hlt
        simp only [List.length_append, List.length_cons, List.length_nil] at hj
        by_cases hjt : j < t.length
        · have := htop j hjt hlt
          show p ((t ++ [a])[j]) = false
          rw [List.getElem_append_left hjt]
          exact this
        · have hje : j = t.length := by omega
          subst hje
          show p ((t ++ [a])[t.length]) = false
          rw [List.getElem_append_right (Nat.le_refl _)]
          simpa using hpa2

theorem layerHit_skips (l : LayerObj) (mx my : ℚ)
    (h : layerHit l mx my = true) : l.visible = true ∧ l.locked = false := by
  unfold layerHit at h
  by_cases hc : (!l.visible || l.locked) = true
  · rw [if_pos hc] at h
    exact absurd h (by simp)
  · rcases hv : l.visible <;> rcases hl : l.locked <;> simp_all

/-- C8: a pointer-down hit-tests the layers from the top of the paint order
downward, never hits an invisible or locked layer, selects the topmost hit
layer (so of two overlapping candidates the later-in-order one wins), and
clears the selection when no layer's box contains the pointer. -/
theorem claim_C8 (st : AppState) (mx my : ℚ) :
    ((∀ l ∈ st.layers, layerHit l mx my = false) →
      (handleMouseDown st mx my).selectedLayerId = none)
  ∧ (∀ clicked : LayerObj, hitTest st.layers mx my = some clicked →
      (handleMouseDown st mx my).selectedLayerId = some clicked.id
      ∧ clicked ∈ st.layers
      ∧ layerHit clicked mx my = true
      ∧ clicked.visible = true ∧ clicked.locked = false
      ∧ ∃ (i : Nat) (h : i < st.layers.length), st.layers.get ⟨i, h⟩ = clicked
          ∧ ∀ (j : Nat) (hj : j < st.layers.length), i < j →
              layerHit (st.layers.get ⟨j, hj⟩) mx my = false)
  ∧ (∀ l : LayerObj, l.locked = true → layerHit l mx my = false)
  ∧ (∀ l : LayerObj, l.visible = false → layerHit l mx my = false) := by
  refine ⟨?_, ?_, ?_, ?_⟩
  · intro hall
    have hnone : hitTest st.layers mx my = none := by
      unfold hitTest
      rw [List.find?_eq_none]
      intro l hl
      simp [hall l (List.mem_reverse.mp hl)]
    unfold handleMouseDown
    rw [hnone]
  · intro clicked hc
    have hc2 : st.layers.reverse.find? (fun l => layerHit l mx my) = some clicked := hc
    have hmem : clicked ∈ st.layers :=
      List.mem_reverse.mp (List.mem_of_find?_eq_some hc2)
    have hhit : layerHit clicked mx my = true := by
      have := List.find?_some hc2
      simpa using this
    refine ⟨?_, hmem, hhit, (layerHit_skips clicked mx my hhit).1,
      (layerHit_skips clicked mx my hhit).2, ?_⟩
    · unfold handleMouseDown
      rw [hc]
    · rcases find?_reverse_topmost (fun l => layerHit l mx my) st.layers clicked hc with ⟨i, h, hget, _, htop⟩
      exact ⟨i, h, hget, htop⟩
  · intro l hlock
    unfold layerHit
    rw [if_pos (by simp [hlock])]
  · intro l hvis
    unfold layerHit
    rw [if_pos (by simp [hvis])]

/-- Witness for C8: a locked layer is never hit; the lock hypothesis holds
at a concrete layer. -/
theorem claim_C8_witness :
    ({ mkL 0 with locked := true } : LayerObj).locked = true
  ∧ layerHit { mkL 0 with locked := true } 0 0 = false :=
  ⟨rfl, (claim_C8 initialState 0 0).2.2.1 { mkL 0 with locked := true } rfl⟩

/-! Compositor lemmas. -/

theorem filter_pair_get {α : Type} (p : α → Bool) :
    ∀ (l : List α) (i j : Nat) (hi : i < l.length) (hj : j < l.length),
      i < j → p (l.get ⟨i, hi⟩) = true → p (l.get ⟨j, hj⟩) = true →
      ∃ (di dj : Nat) (hdi : di < (l.filter p).length)
        (hdj : dj < (l.filter p).length),
        di < dj ∧ (l.filter p).get ⟨di, hdi⟩ = l.get ⟨i, hi⟩
        ∧ (l.filter p).get ⟨dj, hdj⟩ = l.get ⟨j, hj⟩ := by
  intro l
  induction l with
  | nil =>
    intro i j hi hj
    simp at hi
  | cons a t ih =>
    intro i j hi hj hij hpi hpj
    cases i with
    | zero =>
      have hpa : p a = true := hpi
      cases j with
      | zero => omega
      | succ jp =>
        have hjp : jp < t.length := by
          simpa using hj
        have hpjp : p (t.get ⟨jp, hjp⟩) = true := hpj
        have hmem : t.get ⟨jp, hjp⟩ ∈ t.filter p :=
          List.mem_filter.mpr ⟨List.get_mem t jp hjp, hpjp⟩
        rcases List.mem_iff_get.mp hmem with ⟨⟨k, hk⟩, hkeq⟩
        rw [List.filter_cons_of_pos hpa]
        refine ⟨0, k + 1, by simp, by simpa using Nat.succ_lt_succ hk, by omega,
          rfl, ?_⟩
        simpa using hkeq
    | succ ip =>
      cases j with
      | zero => omega
      | succ jp =>
        have hipt : ip < t.length := by simpa using hi
        have hjpt : jp < t.length := by simpa using hj
        have hpi2 : p (t.get ⟨ip, hipt⟩) = true := hpi
        have hpj2 : p (t.get ⟨jp, hjpt⟩) = true := hpj
        rcases ih ip jp hipt hjpt (by omega) hpi2 hpj2 with
          ⟨di, dj, hdi, hdj, hdij, hde1, hde2⟩
        by_cases hpa : p a = true
        · rw [List.filter_cons_of_pos hpa]
          exact ⟨di + 1, dj + 1, by simpa using Nat.succ_lt_succ hdi,
            by simpa using Nat.succ_lt_succ hdj, by omega,
            by simpa using hde1, by simpa using hde2⟩
        · rw [List.filter_cons_of_neg (by simp [hpa])]
          exact ⟨di, dj, hdi, hdj, hdij, hde1, hde2⟩

/-- C9: the compositor draws exactly the visible layers, as an in-order
subsequence of the layer sequence, so of two visible layers the one later in
the sequence is drawn later and appears on top. -/
theorem claim_C9 (layers : List LayerObj) :
    (drawnLayers layers).Sublist layers
  ∧ (∀ l : LayerObj, l ∈ drawnLayers layers ↔ l ∈ layers ∧ l.visible = true)
  ∧ (∀ (i j : Nat) (hi : i < layers.length) (hj : j < layers.length),
      i < j → (layers.get ⟨i, hi⟩).visible = true →
      (layers.get ⟨j, hj⟩).visible = true →
      ∃ (di dj : Nat) (hdi : di < (drawnLayers layers).length)
        (hdj : dj < (drawnLayers layers).length),
        di < dj ∧ (drawnLayers layers).get ⟨di, hdi⟩ = layers.get ⟨i, hi⟩
        ∧ (drawnLayers layers).get ⟨dj, hdj⟩ = layers.get ⟨j, hj⟩) := by
  refine ⟨List.filter_sublist _, ?_, ?_⟩
  · intro l
    constructor
    · intro hl
      have := List.mem_filter.mp hl
      exact ⟨this.1, this.2⟩
    · intro hl
      exact List.mem_filter.mpr ⟨hl.1, hl.2⟩
  · intro i j hi hj hij hvi hvj
    exact filter_pair_get (fun l => l.visible) layers i j hi hj hij hvi hvj

/-- Witness for C9: on a two-layer sequence with both layers visible, the
order and visibility hypotheses hold and the theorem places their draw
positions in the same order. -/
theorem claim_C9_witness :
    ((0 : Nat) < 1
      ∧ (([mkL 0, mkL 1] : List LayerObj).get ⟨0, by decide⟩).visible = true
      ∧ (([mkL 0, mkL 1] : List LayerObj).get ⟨1, by decide⟩).visible = true)
  ∧ ∃ (di dj : Nat) (hdi : di < (drawnLayers [mkL 0, mkL 1]).length)
      (hdj : dj < (drawnLayers [mkL 0, mkL 1]).length),
      di < dj
      ∧ (drawnLayers [mkL 0, mkL 1]).get ⟨di, hdi⟩ =
          ([mkL 0, mkL 1] : List LayerObj).get ⟨0, by decide⟩
      ∧ (drawnLayers [mkL 0, mkL 1]).get ⟨dj, hdj⟩ =
          ([mkL 0, mkL 1] : List LayerObj).get ⟨1, by decide⟩ :=
  ⟨⟨by decide, rfl, rfl⟩,
   (claim_C9 [mkL 0, mkL 1]).2.2 0 1 (by decide) (by decide) (by decide) rfl rfl⟩

/-! Session invariant lemmas. -/

theorem selectionOkB_iff (st : AppState) :
    selectionOkB st = true ↔
      ∀ sid : Nat, st.selectedLayerId = some sid → ∃ l ∈ st.layers, l.id = sid := by
  unfold selectionOkB
  cases h : st.selectedLayerId with
  | none => simp
  | some s =>
    simp only [List.any_eq_true, beq_iff_eq, Option.some.injEq]
    constructor
    · rintro ⟨l, hl, hid⟩ sid hsid
      subst hsid
      exact ⟨l, hl, hid⟩
    · intro hall
      exact hall s rfl

theorem step_selectionOk (st : AppState) (op : Op)
    (hok : selectionOkB st = true) (hop : opKeepsIds op = true) :
    selectionOkB (step st op) = true := by
  have hinv := (selectionOkB_iff st).mp hok
  rw [selectionOkB_iff]
  cases op with
  | addBaseImage src w h =>
    intro sid hsid
    rcases hinv sid hsid with ⟨l, hl, hid⟩
    exact ⟨l, List.mem_cons_of_mem _ hl, hid⟩
  | addText t c yo =>
    intro sid hsid
    have hs : (newTextLayer st t c yo).id = sid := by
      have h2 : some (newTextLayer st t c yo).id = some sid := hsid
      injection h2
    refine ⟨newTextLayer st t c yo, ?_, hs⟩
    show newTextLayer st t c yo ∈ st.layers ++ [newTextLayer st t c yo]
    simp
  | bulkAddText items =>
    intro sid hsid
    rcases hinv sid hsid with ⟨l, hl, hid⟩
    exact ⟨l, List.mem_append_left _ hl, hid⟩
  | update id p =>
    intro sid hsid
    rcases hinv sid hsid with ⟨l, hl, hid⟩
    have hpid : p.id = none := by
      have h2 : (p.id == none) = true := hop
      simpa using h2
    refine ⟨if l.id == id then applyPatch l p else l, ?_, ?_⟩
    · exact List.mem_map.mpr ⟨l, hl, rfl⟩
    · by_cases hc : (l.id == id) = true
      · rw [if_pos hc]
        show p.id.getD l.id = sid
        rw [hpid]
        exact hid
      · rw [if_neg hc]
        exact hid
  | delete id =>
    intro sid hsid
    have hsid2 : (if st.selectedLayerId = some id then none
        else st.selectedLayerId) = some sid := hsid
    by_cases hc : st.selectedLayerId = some id
    · rw [if_pos hc] at hsid2
      exact absurd hsid2 (by simp)
    · rw [if_neg hc] at hsid2
      rcases hinv sid hsid2 with ⟨l, hl, hid⟩
      refine ⟨l, List.mem_filter.mpr ⟨hl, bne_iff_ne.mpr ?_⟩, hid⟩
      intro he
      apply hc
      rw [hsid2, ← hid, he]
  | duplicate =>
    cases hsel : st.selectedLayerId with
    | none =>
      intro sid hsid
      have hdup : duplicateLayer st = st := by
        unfold duplicateLayer
        rw [hsel]
      rw [show step st Op.duplicate = duplicateLayer st from rfl, hdup] at hsid
      rcases hinv sid hsid with ⟨l, hl, hid⟩
      refine ⟨l, ?_, hid⟩
      rw [show step st Op.duplicate = duplicateLayer st from rfl, hdup]
      exact hl
    | some s =>
      cases hfind : st.layers.find? (fun l => l.id == s) with
      | none =>
        intro sid hsid
        have hdup : duplicateLayer st = st := by
          unfold duplicateLayer
          rw [hsel]
          show (match st.layers.find? (fun l : LayerObj => l.id == s) with
            | none => st
            | some original => _) = st
          rw [hfind]
        rw [show step st Op.duplicate = duplicateLayer st from rfl, hdup] at hsid
        rcases hinv sid hsid with ⟨l, hl, hid⟩
        refine ⟨l, ?_, hid⟩
        rw [show step st Op.duplicate = duplicateLayer st from rfl, hdup]
        exact hl
      | some orig =>
        intro sid hsid
        have hdup : duplicateLayer st =
            { st with
              layers := st.layers ++ [{ orig with
                id := st.nextId
                name := orig.name ++ " (Copy)"
                x := orig.x + 20
                y := orig.y + 20 }]
              selectedLayerId := some st.nextId
              nextId := st.nextId + 1 } := by
          unfold duplicateLayer
          rw [hsel]
          show (match st.layers.find? (fun l : LayerObj => l.id == s) with
            | none => st
            | some original => _) = _
          rw [hfind]
        rw [show step st Op.duplicate = duplicateLayer st from rfl, hdup] at hsid
        have hs2 : st.nextId = sid := by
          have h2 : some st.nextId = some sid := hsid
          injection h2
        refine ⟨{ orig with
            id := st.nextId
            name := orig.name ++ " (Copy)"
            x := orig.x + 20
            y := orig.y + 20 }, ?_, hs2⟩
        rw [show step st Op.duplicate = duplicateLayer st from rfl, hdup]
        simp
  | reorder f t =>
    intro sid hsid
    rcases hinv sid hsid with ⟨l, hl, hid⟩
    exact ⟨l, ((reorderLayers_perm st.layers f t).mem_iff).mpr hl, hid⟩
  | mouseDown mx my =>
    cases hht : hitTest st.layers mx my with
    | none =>
      intro sid hsid
      have hmd : handleMouseDown st mx my = { st with selectedLayerId := none } := by
        unfold handleMouseDown
        rw [hht]
      rw [show step st (Op.mouseDown mx my) = handleMouseDown st mx my from rfl,
        hmd] at hsid
      exact absurd hsid (by simp)
    | some c =>
      intro sid hsid
      have hmd : handleMouseDown st mx my =
          { st with selectedLayerId := some c.id } := by
        unfold handleMouseDown
        rw [hht]
      rw [show step st (Op.mouseDown mx my) = handleMouseDown st mx my from rfl,
        hmd] at hsid
      have hs2 : c.id = sid := by
        have h2 : some c.id = some sid := hsid
        injection h2
      have hcm : c ∈ st.layers :=
        List.mem_reverse.mp (List.mem_of_find?_eq_some
          (show st.layers.reverse.find? (fun l => layerHit l mx my) = some c from hht))
      refine ⟨c, ?_, hs2⟩
      rw [show step st (Op.mouseDown mx my) = handleMouseDown st mx my from rfl, hmd]
      exact hcm

theorem run_selectionOk (ops : List Op) :
    ∀ st : AppState, selectionOkB st = true →
      (∀ op ∈ ops, opKeepsIds op = true) →
      selectionOkB (ops.foldl step st) = true := by
  induction ops with
  | nil =>
    intro st h _
    simpa using h
  | cons op rest ih =>
    intro st h hall
    simp only [List.foldl_cons]
    exact ih (step st op) (step_selectionOk st op h (hall op (by simp)))
      (fun o ho => hall o (List.mem_cons_of_mem _ ho))

/-- C10: the claim states the selection invariant for every operation
sequence; the update operation's record admits the id field, and a patch
giving it renames a layer while the selection keeps the old id, orphaning
it.  Amended: starting from the empty session, after any sequence of the
store operations in which no update patch gives the id field, the selected
layer id is either none or the id of a layer present in the sequence. -/
theorem claim_C10 (ops : List Op) (hops : ∀ op ∈ ops, opKeepsIds op = true) :
    ∀ sid : Nat, (run ops).selectedLayerId = some sid →
      ∃ l ∈ (run ops).layers, l.id = sid :=
  (selectionOkB_iff _).mp (run_selectionOk ops initialState rfl hops)

/-- Counterexample to C10 as stated: adding a text layer selects id 0, and an
update patch that gives the id field renames the layer to id 5, leaving the
selection pointing at an id no layer carries. -/
theorem claim_C10_counterexample :
    (run [Op.addText "hi" "#FFFFFF" none,
        Op.update 0 { emptyPatch with id := some 5 }]).selectedLayerId = some 0
  ∧ (run [Op.addText "hi" "#FFFFFF" none,
        Op.update 0 { emptyPatch with id := some 5 }]).layers.map (fun l => l.id) =
      [5]
  ∧ selectionOkB (run [Op.addText "hi" "#FFFFFF" none,
        Op.update 0 { emptyPatch with id := some 5 }]) = false :=
  ⟨rfl, rfl, rfl⟩

/-- Witness for C10: a single text add keeps every id, the selection is id 0,
and the theorem exhibits the selected layer. -/
theorem claim_C10_witness :
    (∀ op ∈ [Op.addText "hi" "#FFFFFF" none], opKeepsIds op = true)
  ∧ (run [Op.addText "hi" "#FFFFFF" none]).selectedLayerId = some 0
  ∧ ∃ l ∈ (run [Op.addText "hi" "#FFFFFF" none]).layers, l.id = 0 :=
  ⟨by decide, rfl, claim_C10 [Op.addText "hi" "#FFFFFF" none] (by decide) 0 rfl⟩

end WebSSRP
